import Mathlib

/-!
Verification development for the eb2ez Eventbrite-to-EZ-Badge CSV converter
(file src/eb2ez.py).  The script is a linear pipeline:

  validate path / extension / headers  →  read rows as dictionaries  →
  normalize three Yes/No fields  →  rename headers  →  write a 15-column
  CSV with conditional quoting and a trailing comma on every line.

Python strings are modelled as Lean String (with List Char used at the
character level), python dictionaries as partial maps String → Option String,
and the file-system boundary (existence checks, reading the first row) as
explicit parameters.  Every definition mirrors the corresponding python
function of the source; definitions are executable so that concrete runs can
be checked by evaluation.
-/

namespace Eb2ez

/-- The double-quote character, written by code point to keep character
literals simple. -/
def dq : Char := Char.ofNat 34

/-- Membership of a single character in a string: models the python test
given by the expression c in value. -/
def containsChar (s : String) (c : Char) : Bool :=
  s.data.any (fun d => d == c)

/-- Model of needs_quoting (src/eb2ez.py lines 128-141): true when the value
is exactly one space, or contains a comma, a newline, a carriage return, or a
double quote.  The python if-chain returning True/False is written as the
same chain of conditionals. -/
def needs_quoting (value : String) : Bool :=
  if value = " " then true
  else if containsChar value ',' then true
  else if containsChar value '\n' || containsChar value '\r' then true
  else if containsChar value dq then true
  else false

/-- Character-level model of value.replace applied to one double quote
becoming two double quotes: every double-quote character is doubled, all
other characters are kept. -/
def escapeList : List Char → List Char
  | [] => []
  | c :: cs => if c = dq then dq :: dq :: escapeList cs else c :: escapeList cs

/-- Model of the escaping step of format_csv_value (line 150). -/
def escapeQuotes (value : String) : String :=
  String.mk (escapeList value.data)

/-- Model of format_csv_value (src/eb2ez.py lines 144-153): when quoting is
needed the escaped value is wrapped in double quotes, otherwise the value is
returned unchanged. -/
def format_csv_value (value : String) : String :=
  if needs_quoting value then String.mk (dq :: escapeList value.data ++ [dq])
  else value

lemma string_data_append (s t : String) : (s ++ t).data = s.data ++ t.data := rfl

lemma containsChar_eq_true_iff (s : String) (c : Char) :
    containsChar s c = true ↔ c ∈ s.data := by
  simp [containsChar, List.any_eq_true, beq_iff_eq]

lemma containsChar_eq_false_iff (s : String) (c : Char) :
    containsChar s c = false ↔ c ∉ s.data := by
  rw [← Bool.not_eq_true, containsChar_eq_true_iff]

lemma needs_quoting_eq (v : String) :
    needs_quoting v =
      ((v == " ") || containsChar v ',' ||
        (containsChar v '\n' || containsChar v '\r') || containsChar v dq) := by
  unfold needs_quoting
  split_ifs with h1 h2 h3 h4 <;> simp_all

lemma needs_quoting_eq_false_iff (v : String) :
    needs_quoting v = false ↔
      v ≠ " " ∧ containsChar v ',' = false ∧ containsChar v dq = false ∧
        containsChar v '\r' = false ∧ containsChar v '\n' = false := by
  rw [needs_quoting_eq]
  simp only [Bool.or_eq_false_iff, beq_eq_false_iff_ne, ne_eq]
  tauto

lemma escapeList_length (l : List Char) :
    (escapeList l).length = l.length + l.count dq := by
  induction l with
  | nil => rfl
  | cons c cs ih =>
    by_cases h : c = dq
    · subst h
      simp [escapeList, ih, List.count_cons]
      omega
    · simp [escapeList, h, ih, List.count_cons]
      omega

lemma escapeList_injective (l₁ l₂ : List Char) (h : escapeList l₁ = escapeList l₂) :
    l₁ = l₂ := by
  induction l₁ generalizing l₂ with
  | nil =>
    cases l₂ with
    | nil => rfl
    | cons c cs =>
      exfalso
      by_cases hc : c = dq <;> simp [escapeList, hc] at h
  | cons c cs ih =>
    cases l₂ with
    | nil =>
      exfalso
      by_cases hc : c = dq <;> simp [escapeList, hc] at h
    | cons d ds =>
      by_cases hc : c = dq <;> by_cases hd : d = dq
      · subst hc; subst hd
        simp [escapeList] at h
        exact congrArg (dq :: ·) (ih ds h)
      · exfalso
        subst hc
        simp [escapeList, hd] at h
        exact hd h.1.symm
      · exfalso
        subst hd
        simp [escapeList, hc] at h
      · simp [escapeList, hc, hd] at h
        rw [h.1, ih ds h.2]

lemma format_csv_value_of_quoting (v : String) (h : needs_quoting v = true) :
    format_csv_value v = String.mk (dq :: escapeList v.data ++ [dq]) := by
  simp [format_csv_value, h]

lemma format_csv_value_ne_of_quoting (v : String) (h : needs_quoting v = true) :
    format_csv_value v ≠ v := by
  intro heq
  have hlen : (format_csv_value v).length = v.length := congrArg String.length heq
  rw [format_csv_value_of_quoting v h] at hlen
  have : (String.mk (dq :: escapeList v.data ++ [dq])).length =
      (escapeList v.data).length + 2 := by
    simp [String.length]
  rw [this, escapeList_length] at hlen
  have : v.length = v.data.length := rfl
  omega

/-- Claim C4: format_csv_value returns its argument unchanged exactly when
the argument is not a single space and contains none of comma, double quote,
carriage return, line feed; otherwise it doubles every embedded double quote
and wraps the result in double quotes (so its length grows by the number of
embedded quotes plus two). -/
theorem c4_format_unchanged_iff (v : String) :
    (format_csv_value v = v ↔
      v ≠ " " ∧ containsChar v ',' = false ∧ containsChar v dq = false ∧
        containsChar v '\r' = false ∧ containsChar v '\n' = false) ∧
    (needs_quoting v = true →
      format_csv_value v = String.mk (dq :: escapeList v.data ++ [dq]) ∧
      (format_csv_value v).length = v.length + v.data.count dq + 2) := by
  constructor
  · constructor
    · intro h
      rw [← needs_quoting_eq_false_iff]
      by_contra hq
      have hq' : needs_quoting v = true := by
        cases hnq : needs_quoting v with
        | false => exact absurd hnq hq
        | true => rfl
      exact format_csv_value_ne_of_quoting v hq' h
    · intro h
      have := (needs_quoting_eq_false_iff v).mpr h
      simp [format_csv_value, this]
  · intro h
    refine ⟨format_csv_value_of_quoting v h, ?_⟩
    rw [format_csv_value_of_quoting v h]
    have h1 : (String.mk (dq :: escapeList v.data ++ [dq])).length =
        (escapeList v.data).length + 2 := by
      simp [String.length]
    have h2 : v.length = v.data.length := rfl
    rw [h1, escapeList_length]
    omega

/-- Witness for C4 at concrete inputs: the empty string is emitted unquoted,
while a lone space is quoted. -/
theorem c4_witness :
    format_csv_value "" = "" ∧
    format_csv_value " " = String.mk [dq, ' ', dq] :=
  ⟨(c4_format_unchanged_iff "").1.mpr (by decide),
   ((c4_format_unchanged_iff " ").2 (by decide)).1⟩

lemma needs_quoting_no_dq (v : String) (h : needs_quoting v = false) :
    dq ∉ v.data := by
  have := (needs_quoting_eq_false_iff v).mp h
  exact (containsChar_eq_false_iff v dq).mp this.2.2.1

/-- Claim C10: the conditional quoting scheme is lossless, i.e.
format_csv_value is injective. -/
theorem c10_format_injective (v w : String)
    (h : format_csv_value v = format_csv_value w) : v = w := by
  have hdata : (format_csv_value v).data = (format_csv_value w).data :=
    congrArg String.data h
  cases hv : needs_quoting v <;> cases hw : needs_quoting w
  · simpa [format_csv_value, hv, hw] using h
  · exfalso
    have : (format_csv_value v).data = v.data := by simp [format_csv_value, hv]
    rw [this] at hdata
    have hw' : (format_csv_value w).data = dq :: escapeList w.data ++ [dq] := by
      simp [format_csv_value, hw]
    rw [hw'] at hdata
    have : dq ∈ v.data := by rw [hdata]; exact List.mem_cons_self _ _
    exact needs_quoting_no_dq v hv this
  · exfalso
    have : (format_csv_value w).data = w.data := by simp [format_csv_value, hw]
    rw [this] at hdata
    have hv' : (format_csv_value v).data = dq :: escapeList v.data ++ [dq] := by
      simp [format_csv_value, hv]
    rw [hv'] at hdata
    have : dq ∈ w.data := by rw [← hdata]; exact List.mem_cons_self _ _
    exact needs_quoting_no_dq w hw this
  · have hv' : (format_csv_value v).data = dq :: escapeList v.data ++ [dq] := by
      simp [format_csv_value, hv]
    have hw' : (format_csv_value w).data = dq :: escapeList w.data ++ [dq] := by
      simp [format_csv_value, hw]
    rw [hv', hw'] at hdata
    have htail : escapeList v.data ++ [dq] = escapeList w.data ++ [dq] := by
      injection hdata
    have hesc : escapeList v.data = escapeList w.data :=
      (List.append_inj' htail rfl).1
    have hd : v.data = w.data := escapeList_injective _ _ hesc
    exact String.ext hd

/-- Witness for C10 at a concrete input: two equal quoted encodings decode
to the same value. -/
theorem c10_witness :
    format_csv_value "a,b" = format_csv_value "a,b" ∧ ("a,b" : String) = "a,b" :=
  ⟨rfl, c10_format_injective "a,b" "a,b" rfl⟩

/-- A python dictionary row, as produced by csv.DictReader: a partial map
from column names to string values.  Rows whose key is bound to python None
are modelled by absence of the key (both are replaced by a space at output
time, see output_cell). -/
abbrev Row := String → Option String

/-- The empty dictionary. -/
def emptyRow : Row := fun _ => none

/-- Dictionary assignment: models the python statement row[k] = v. -/
def rset (r : Row) (k : String) (v : String) : Row :=
  fun q => if q = k then some v else r q

/-- Dictionary access row[k] on rows known to bind every fieldname; an
absent key is totalised to the empty string (csv.DictReader rows bind every
header, so the default is never exercised on pipeline rows). -/
def totalGet (r : Row) (k : String) : String :=
  (r k).getD ""

lemma rset_same (r : Row) (k v : String) : rset r k v k = some v := by
  simp [rset]

lemma rset_other (r : Row) (k v q : String) (h : q ≠ k) : rset r k v q = r q := by
  simp [rset, h]

/-- Name of the consultant question column. -/
def key_consultant : String := "Are you a consultant?"

/-- Name of the IEEE-membership question column. -/
def key_ieee : String := "Are you an IEEE member?"

/-- Name of the CNSV-membership question column. -/
def key_cnsv : String := "Are you an IEEE-CNSV Member?"

/-- One value-normalisation block of preprocess_data (src/eb2ez.py lines
80-102): when the key is bound, a literal Yes becomes the given label and a
literal No becomes a single space; any other value, and unbound keys, are
left untouched. -/
def transform_field (r : Row) (k : String) (label : String) : Row :=
  match r k with
  | some v => if v = "Yes" then rset r k label
              else if v = "No" then rset r k " " else r
  | none => r

/-- Model of preprocess_data applied to one row: the three blocks run in
source order (consultant, then IEEE, then CNSV). -/
def preprocess_row (r : Row) : Row :=
  transform_field
    (transform_field (transform_field r key_consultant "Consultant") key_ieee "IEEE")
    key_cnsv "CNSV"

/-- Model of preprocess_data (src/eb2ez.py lines 70-106): each row is copied
and normalised independently. -/
def preprocess_data (rows : List Row) : List Row :=
  rows.map preprocess_row

/-- Label substituted for a Yes answer in each of the three question
columns. -/
def label_for (k : String) : String :=
  if k = key_consultant then "Consultant" else if k = key_ieee then "IEEE" else "CNSV"

lemma transform_field_other (r : Row) (k label q : String) (h : q ≠ k) :
    transform_field r k label q = r q := by
  unfold transform_field
  cases hr : r k with
  | none => rfl
  | some v =>
    dsimp only
    split_ifs with h1 h2 <;> first | exact rset_other r k _ q h | rfl

lemma transform_field_self (r : Row) (k label : String) :
    transform_field r k label k =
      match r k with
      | some v => some (if v = "Yes" then label else if v = "No" then " " else v)
      | none => none := by
  unfold transform_field
  cases hr : r k with
  | none => exact hr
  | some v =>
    dsimp only
    split_ifs with h1 h2 <;> simp_all [rset_same]

lemma key_consultant_ne_ieee : key_consultant ≠ key_ieee := by decide

lemma key_consultant_ne_cnsv : key_consultant ≠ key_cnsv := by decide

lemma key_ieee_ne_cnsv : key_ieee ≠ key_cnsv := by decide

/-- Pointwise description of preprocess_row: the three question columns are
normalised through label_for, every other column is untouched. -/
lemma preprocess_row_spec (r : Row) (k : String) :
    preprocess_row r k =
      if k = key_consultant ∨ k = key_ieee ∨ k = key_cnsv then
        match r k with
        | some v => some (if v = "Yes" then label_for k
                          else if v = "No" then " " else v)
        | none => none
      else r k := by
  unfold preprocess_row
  by_cases h1 : k = key_consultant
  · subst h1
    rw [transform_field_other _ _ _ _ key_consultant_ne_cnsv,
        transform_field_other _ _ _ _ key_consultant_ne_ieee,
        transform_field_self]
    simp [label_for]
  · by_cases h2 : k = key_ieee
    · subst h2
      rw [transform_field_other _ _ _ _ key_ieee_ne_cnsv, transform_field_self,
          transform_field_other _ _ _ _ (fun he => h1 he)]
      simp [label_for, h1]
    · by_cases h3 : k = key_cnsv
      · subst h3
        rw [transform_field_self,
            transform_field_other _ _ _ _ (fun he => h2 he),
            transform_field_other _ _ _ _ (fun he => h1 he)]
        simp [label_for, h1, h2]
      · rw [transform_field_other _ _ _ _ h3, transform_field_other _ _ _ _ h2,
            transform_field_other _ _ _ _ h1]
        simp [h1, h2, h3]

/-- Claim C3: on each of the three question fields, preprocessing maps the
literal Yes to its fixed label (Consultant, IEEE, CNSV), the literal No to a
single space, and leaves every other bound value, the empty string included,
unchanged. -/
theorem c3_preprocess_yes_no (r : Row) :
    (r key_consultant = some "Yes" → preprocess_row r key_consultant = some "Consultant") ∧
    (r key_ieee = some "Yes" → preprocess_row r key_ieee = some "IEEE") ∧
    (r key_cnsv = some "Yes" → preprocess_row r key_cnsv = some "CNSV") ∧
    (∀ k, (k = key_consultant ∨ k = key_ieee ∨ k = key_cnsv) →
      r k = some "No" → preprocess_row r k = some " ") ∧
    (∀ k v, r k = some v → v ≠ "Yes" → v ≠ "No" → preprocess_row r k = some v) := by
  refine ⟨?_, ?_, ?_, ?_, ?_⟩
  · intro h
    rw [preprocess_row_spec]
    simp [h, label_for]
  · intro h
    rw [preprocess_row_spec]
    simp [h, label_for, key_consultant_ne_ieee.symm]
  · intro h
    rw [preprocess_row_spec]
    simp [h, label_for, key_consultant_ne_cnsv.symm, key_ieee_ne_cnsv.symm]
  · intro k hk h
    rw [preprocess_row_spec]
    simp [hk, h]
  · intro k v h hy hn
    rw [preprocess_row_spec]
    by_cases hk : k = key_consultant ∨ k = key_ieee ∨ k = key_cnsv
    · simp [hk, h, hy, hn]
    · simp [hk, h]

/-- Witness for C3: a concrete row answering Yes, No, and empty on the three
questions. -/
theorem c3_witness :
    preprocess_row
      (rset (rset (rset emptyRow key_consultant "Yes") key_ieee "No") key_cnsv "")
      key_consultant = some "Consultant" :=
  (c3_preprocess_yes_no
      (rset (rset (rset emptyRow key_consultant "Yes") key_ieee "No") key_cnsv "")).1
    (by decide)

lemma label_for_ne_yes (k : String) : label_for k ≠ "Yes" := by
  unfold label_for
  split_ifs <;> decide

lemma label_for_ne_no (k : String) : label_for k ≠ "No" := by
  unfold label_for
  split_ifs <;> decide

lemma preprocess_row_idem (r : Row) :
    preprocess_row (preprocess_row r) = preprocess_row r := by
  funext k
  rw [preprocess_row_spec, preprocess_row_spec]
  by_cases hk : k = key_consultant ∨ k = key_ieee ∨ k = key_cnsv
  · simp only [hk, if_true]
    cases hr : r k with
    | none => rfl
    | some v =>
      by_cases hy : v = "Yes"
      · simp [hy, label_for_ne_yes k, label_for_ne_no k]
      · by_cases hn : v = "No"
        · simp [hy, hn]
        · simp [hy, hn]
  · simp [hk]

/-- Claim C9: value normalisation is idempotent: applying preprocess_data
twice yields the same rows as applying it once. -/
theorem c9_preprocess_idempotent (rows : List Row) :
    preprocess_data (preprocess_data rows) = preprocess_data rows := by
  unfold preprocess_data
  rw [List.map_map]
  have h : preprocess_row ∘ preprocess_row = preprocess_row :=
    funext preprocess_row_idem
  rw [h]

/-- The fixed header-rename table of rename_columns (src/eb2ez.py lines
113-119). -/
def column_mapping : List (String × String) :=
  [("First Name", "FirstName"),
   ("Last Name", "LastName"),
   ("Company", "Company or Organization"),
   ("Are you an IEEE member?", "IEEE?"),
   ("Are you an IEEE-CNSV Member?", "CNSV?")]

/-- Model of column_mapping.get(header, header): headers outside the table
pass through unchanged. -/
def rename_header (h : String) : String :=
  (column_mapping.lookup h).getD h

/-- Model of rename_columns (src/eb2ez.py lines 109-125). -/
def rename_columns (headers : List String) : List String :=
  headers.map rename_header

/-- Model of the updated_data loop of process_csv_file (src/eb2ez.py lines
222-227): a fresh dictionary is filled by assigning new_row[new] = row[old]
over zip(headers, renamed_headers). -/
def rename_row (headers : List String) (r : Row) : Row :=
  (headers.zip (rename_columns headers)).foldl
    (fun nr p => rset nr p.2 (totalGet r p.1)) emptyRow

/-- The fixed, ordered list of 15 output columns of generate_output_file
(src/eb2ez.py lines 161-166). -/
def output_columns : List String :=
  ["FirstName", "LastName", "Email", "Company or Organization", "IEEE?", "CNSV?",
   "Are you a consultant?", "Are you on CNSV BOD?", "CB 6:1 - CNSV Email",
   "CB 6:2 - CNSV Website", "CB 6:3 - IEEE GRID", "CB 6:4 - Eventbrite Browsing",
   "CB 6:5 - Meetup", "CB 6:6 - Friend", "CB 6:7 - Other"]

/-- Value emitted for one output column of one data row (src/eb2ez.py lines
181-190): a bound, non-empty value is kept; an empty or missing value
becomes a single space.  A python None value (never produced by this
pipeline's rows) takes the same space branch as the empty string. -/
def output_cell (r : Row) (c : String) : String :=
  match r c with
  | some v => if v = "" then " " else v
  | none => " "

/-- One physical output line (src/eb2ez.py lines 175 and 193): the formatted
values joined by commas, then one trailing comma, then one newline. -/
def build_line (vals : List String) : String :=
  String.intercalate "," (vals.map format_csv_value) ++ ",\n"

/-- The data line written for one row. -/
def data_line (r : Row) : String :=
  build_line (output_columns.map (output_cell r))

/-- All lines written to the output file, in order: the header line over the
fixed output columns, then one line per data row. -/
def generate_output_lines (data : List Row) : List String :=
  build_line output_columns :: data.map data_line

/-- The whole per-row transformation of process_csv_file: value
normalisation followed by the header-rename rebuild. -/
def process_row (headers : List String) (r : Row) : Row :=
  rename_row headers (preprocess_row r)

/-- Claim C2: every line of the output file, the header line included,
consists of exactly 15 formatted values joined by commas, followed by one
trailing comma and a single newline. -/
theorem c2_line_shape (data : List Row) (l : String)
    (h : l ∈ generate_output_lines data) :
    ∃ vals : List String, vals.length = 15 ∧ l = build_line vals := by
  rcases List.mem_cons.mp h with rfl | hmem
  · exact ⟨output_columns, by decide, rfl⟩
  · rcases List.mem_map.mp hmem with ⟨r, _, rfl⟩
    refine ⟨output_columns.map (output_cell r), ?_, rfl⟩
    rw [List.length_map]
    decide

/-- Witness for C2: the header line of an empty run has the 15-value
shape. -/
theorem c2_witness :
    ∃ vals : List String,
      vals.length = 15 ∧ build_line output_columns = build_line vals :=
  c2_line_shape [] (build_line output_columns) (List.mem_cons_self _ _)

lemma foldl_rset_not_mem (L : List (String × String)) (f : String → String)
    (init : Row) (k : String) (h : ∀ p ∈ L, p.2 ≠ k) :
    (L.foldl (fun nr p => rset nr p.2 (f p.1)) init) k = init k := by
  induction L generalizing init with
  | nil => rfl
  | cons a L ih =>
    rw [List.foldl_cons, ih _ (fun p hp => h p (List.mem_cons_of_mem a hp)),
        rset_other _ _ _ _ (fun he => h a (List.mem_cons_self a L) he.symm)]

lemma rename_row_not_mem (headers : List String) (r : Row) (k : String)
    (h : k ∉ rename_columns headers) :
    rename_row headers r k = none := by
  unfold rename_row
  rw [foldl_rset_not_mem]
  · rfl
  · intro p hp hpk
    exact h (hpk ▸ (List.of_mem_zip hp).2)

lemma foldl_rset_get (headers : List String) (r : Row) (init : Row) (c : String)
    (hnd : (headers.map rename_header).Nodup) (hc : c ∈ headers) :
    ((headers.zip (headers.map rename_header)).foldl
        (fun nr p => rset nr p.2 (totalGet r p.1)) init) (rename_header c) =
      some (totalGet r c) := by
  induction headers generalizing init with
  | nil => exact absurd hc (List.not_mem_nil c)
  | cons h hs ih =>
    rw [List.map_cons, List.zip_cons_cons, List.foldl_cons]
    rcases List.mem_cons.mp hc with rfl | hmem
    · have hnotin : rename_header c ∉ hs.map rename_header :=
        (List.nodup_cons.mp hnd).1
      rw [foldl_rset_not_mem]
      · exact rset_same _ _ _
      · intro p hp hpk
        exact hnotin (hpk ▸ (List.of_mem_zip hp).2)
    · exact ih _ (List.nodup_cons.mp hnd).2 hmem

lemma rename_row_get (headers : List String) (r : Row) (c : String)
    (hnd : (rename_columns headers).Nodup) (hc : c ∈ headers) :
    rename_row headers r (rename_header c) = some (totalGet r c) :=
  foldl_rset_get headers r emptyRow c hnd hc

/-- Claim C5: an empty-string value survives value normalisation and the
header-rename rebuild unchanged, is replaced by a single space only when the
output cell is produced, and is therefore emitted quoted as a space.  The
rename stage is described under the hypothesis that the renamed headers are
duplicate-free (true of every Eventbrite report, whose headers are
distinct). -/
theorem c5_empty_value_pipeline (headers : List String) (r : Row) (c : String)
    (hc : r c = some "") (hmem : c ∈ headers)
    (hnd : (rename_columns headers).Nodup) :
    preprocess_row r c = some "" ∧
    rename_row headers (preprocess_row r) (rename_header c) = some "" ∧
    output_cell (rename_row headers (preprocess_row r)) (rename_header c) = " " ∧
    format_csv_value
      (output_cell (rename_row headers (preprocess_row r)) (rename_header c)) =
      String.mk [dq, ' ', dq] := by
  have h1 : preprocess_row r c = some "" := by
    rw [preprocess_row_spec]
    by_cases hk : c = key_consultant ∨ c = key_ieee ∨ c = key_cnsv
    · simp [hk, hc]
    · simp [hk, hc]
  have h2 : rename_row headers (preprocess_row r) (rename_header c) = some "" := by
    rw [rename_row_get headers _ c hnd hmem]
    simp [totalGet, h1]
  have h3 : output_cell (rename_row headers (preprocess_row r)) (rename_header c)
      = " " := by
    rw [output_cell, h2]
    rfl
  refine ⟨h1, h2, h3, ?_⟩
  rw [h3]
  decide

/-- Witness for C5: a row whose Company field is the empty string yields a
quoted single space in the Company or Organization output column. -/
theorem c5_witness :
    format_csv_value
      (output_cell
        (rename_row ["Company"] (preprocess_row (rset emptyRow "Company" "")))
        (rename_header "Company")) = String.mk [dq, ' ', dq] :=
  (c5_empty_value_pipeline ["Company"] (rset emptyRow "Company" "") "Company"
      (by decide) (by decide) (by decide)).2.2.2

/-- The eight output columns that have no Eventbrite source field. -/
def reserved_columns : List String :=
  ["Are you on CNSV BOD?", "CB 6:1 - CNSV Email", "CB 6:2 - CNSV Website",
   "CB 6:3 - IEEE GRID", "CB 6:4 - Eventbrite Browsing", "CB 6:5 - Meetup",
   "CB 6:6 - Friend", "CB 6:7 - Other"]

/-- The fixed list of expected Eventbrite headers of
validate_eventbrite_headers (src/eb2ez.py lines 42-51). -/
def expected_headers : List String :=
  ["Order #", "Order Date", "First Name", "Last Name", "Email", "Quantity",
   "Price Tier", "Ticket Type", "Attendee #", "Group", "Order Type", "Currency",
   "Total Paid", "Fees Paid", "Eventbrite Fees", "Eventbrite Payment Processing",
   "Attendee Status", "Home Address 1", "Home Address 2", "Home City", "Home State",
   "Home Zip", "Home Country", "How did you hear about this event?",
   "Are you a consultant?", "Are you an IEEE member?", "Are you an IEEE-CNSV Member?",
   "Where are you located (city+state or city+country)",
   "Please tell us where you heard about this event",
   "Of which IEEE Societies and/or Affinity Groups are you a member?",
   "Job Title", "Company"]

/-- The membership loop of validate_eventbrite_headers (src/eb2ez.py lines
59-64): the first expected header not found in the file's header row prints
one diagnostic and fails; the pair records the boolean result and the number
of diagnostic lines printed. -/
def check_headers : List String → List String → Bool × Nat
  | [], _ => (true, 0)
  | e :: es, hs => if e ∈ hs then check_headers es hs else (false, 1)

/-- Model of validate_eventbrite_headers (src/eb2ez.py lines 37-67).  The
argument is the first row of the file when it could be opened and decoded,
and none when reading raised an exception (which prints one diagnostic and
fails, lines 65-67). -/
def validate_eventbrite_headers (firstRow : Option (List String)) : Bool × Nat :=
  match firstRow with
  | none => (false, 1)
  | some headers => check_headers expected_headers headers

lemma check_headers_fst (es hs : List String) :
    (check_headers es hs).1 = true ↔ ∀ e ∈ es, e ∈ hs := by
  induction es with
  | nil => simp [check_headers]
  | cons e es ih =>
    by_cases h : e ∈ hs
    · simp [check_headers, h, ih]
    · simp [check_headers, h]

lemma check_headers_snd (es hs : List String) :
    ((check_headers es hs).1 = false → (check_headers es hs).2 = 1) ∧
    ((check_headers es hs).1 = true → (check_headers es hs).2 = 0) := by
  induction es with
  | nil => simp [check_headers]
  | cons e es ih =>
    by_cases h : e ∈ hs
    · simpa [check_headers, h] using ih
    · simp [check_headers, h]

lemma validate_headers_one_diag (fr : Option (List String))
    (h : (validate_eventbrite_headers fr).1 = false) :
    (validate_eventbrite_headers fr).2 = 1 := by
  cases fr with
  | none => rfl
  | some hs => exact (check_headers_snd expected_headers hs).1 h

/-- Claim C6: there are exactly 32 expected headers; validation succeeds
exactly when the first row could be read and contains every expected header
(order irrelevant, extra headers allowed); every failure, a missing header
or an unreadable file alike, prints exactly one diagnostic, and success
prints none. -/
theorem c6_header_validation (fr : Option (List String)) :
    expected_headers.length = 32 ∧
    ((validate_eventbrite_headers fr).1 = true ↔
      ∃ hs, fr = some hs ∧ ∀ e ∈ expected_headers, e ∈ hs) ∧
    ((validate_eventbrite_headers fr).1 = false →
      (validate_eventbrite_headers fr).2 = 1) ∧
    ((validate_eventbrite_headers fr).1 = true →
      (validate_eventbrite_headers fr).2 = 0) := by
  refine ⟨by decide, ?_, validate_headers_one_diag fr, ?_⟩
  · cases fr with
    | none => simp [validate_eventbrite_headers]
    | some hs =>
      simp only [validate_eventbrite_headers]
      rw [check_headers_fst]
      constructor
      · intro h
        exact ⟨hs, rfl, h⟩
      · rintro ⟨hs', heq, h⟩
        cases Option.some.injEq hs hs' ▸ heq
        exact h
  · cases fr with
    | none => intro h; exact absurd h (by decide)
    | some hs => exact (check_headers_snd expected_headers hs).2

/-- Witness for C6: a header row equal to the expected list validates, and a
header row missing Email does not. -/
theorem c6_witness :
    (validate_eventbrite_headers (some expected_headers)).1 = true ∧
    (validate_eventbrite_headers (some (expected_headers.erase "Email"))).1 = false :=
  ⟨(c6_header_validation (some expected_headers)).2.1.mpr
      ⟨expected_headers, rfl, fun e he => he⟩,
   by decide⟩

/-- Claim C8 (amended): a reserved output column is emitted as the
single-space placeholder for every row whose input headers rename to no
reserved name; in particular for any input whose header row stays within the
32 expected Eventbrite headers.  (The unamended universal claim fails: header
validation allows extra columns, so a valid input may bind a reserved name,
see the counterexample.) -/
theorem c8_reserved_blank (headers : List String) (r : Row) (c : String)
    (hc : c ∈ reserved_columns)
    (hres : ∀ h ∈ headers, rename_header h ∉ reserved_columns) :
    output_cell (process_row headers r) c = " " := by
  have hnone : process_row headers r c = none := by
    unfold process_row
    apply rename_row_not_mem
    intro hmem
    rcases List.mem_map.mp hmem with ⟨h, hh, rfl⟩
    exact hres h hh hc
  rw [output_cell, hnone]

/-- Witness for C8: over the exact expected Eventbrite header list, the
reserved column Are you on CNSV BOD? is emitted as a space for the empty
row. -/
theorem c8_witness :
    output_cell (process_row expected_headers emptyRow) "Are you on CNSV BOD?" = " " :=
  c8_reserved_blank expected_headers emptyRow "Are you on CNSV BOD?"
    (by decide) (by decide)

/-- Counterexample to C8 as stated: a valid input (all 32 expected headers
present, one extra column allowed by validation) can bind a reserved column,
whose value is then emitted verbatim rather than as a space. -/
theorem c8_counterexample :
    (validate_eventbrite_headers
        (some (expected_headers ++ ["Are you on CNSV BOD?"]))).1 = true ∧
    output_cell
      (process_row (expected_headers ++ ["Are you on CNSV BOD?"])
        (rset emptyRow "Are you on CNSV BOD?" "X"))
      "Are you on CNSV BOD?" = "X" := by
  constructor
  · decide
  · decide

/-- Lower-case suffix test of validate_csv_file (src/eb2ez.py line 30):
models file_path.lower().endswith of the string .csv.  Char.toLower agrees
with the python lower-casing on the ASCII range, which is all the suffix
test can distinguish. -/
def ends_with_csv (p : String) : Bool :=
  List.isSuffixOf ".csv".data (p.data.map Char.toLower)

/-- Model of validate_csv_file (src/eb2ez.py lines 19-34): existence of the
file is an explicit boolean input; each failing check prints one diagnostic
and returns false.  The pair records the result and the diagnostic count. -/
def validate_csv_file (file_exists : Bool) (file_path : String) : Bool × Nat :=
  if file_exists = false then (false, 1)
  else if ends_with_csv file_path = false then (false, 1)
  else (true, 0)

/-- Model of the validation portion of main (src/eb2ez.py lines 257-265):
validate_csv_file, then validate_eventbrite_headers, each failure returning
before any output file is created.  The boolean records whether the run
reaches process_csv_file (which is what creates the output file); the
natural number counts the diagnostic lines printed before that point. -/
def main_run (file_exists : Bool) (file_path : String)
    (firstRow : Option (List String)) : Bool × Nat :=
  let v1 := validate_csv_file file_exists file_path
  if v1.1 = false then (false, v1.2)
  else
    let v2 := validate_eventbrite_headers firstRow
    if v2.1 = false then (false, v2.2)
    else (true, 0)

/-- Claim C7: whenever any validation step fails, the missing file, a
non-csv extension, or a failed header check, the run stops with exactly one
diagnostic line and never reaches the code that creates the output file. -/
theorem c7_validation_halts (file_exists : Bool) (file_path : String)
    (firstRow : Option (List String))
    (h : file_exists = false ∨ ends_with_csv file_path = false ∨
      (validate_eventbrite_headers firstRow).1 = false) :
    (main_run file_exists file_path firstRow).1 = false ∧
    (main_run file_exists file_path firstRow).2 = 1 := by
  rcases h with h | h | h
  · simp [main_run, validate_csv_file, h]
  · cases file_exists with
    | false => simp [main_run, validate_csv_file]
    | true => simp [main_run, validate_csv_file, h]
  · cases file_exists with
    | false => simp [main_run, validate_csv_file]
    | true =>
      cases hext : ends_with_csv file_path with
      | false => simp [main_run, validate_csv_file, hext]
      | true =>
        simp [main_run, validate_csv_file, hext, h,
          validate_headers_one_diag firstRow h]

/-- Witness for C7: an existing .csv file whose header row lacks Email fails
validation with one diagnostic and produces no output file. -/
theorem c7_witness :
    (main_run true "attendees.csv" (some (expected_headers.erase "Email"))).1 = false ∧
    (main_run true "attendees.csv" (some (expected_headers.erase "Email"))).2 = 1 :=
  c7_validation_halts true "attendees.csv" (some (expected_headers.erase "Email"))
    (Or.inr (Or.inr (by decide)))

/-- Final path component of a posix path, used by pathlib for stem and
suffix: the characters after the last slash. -/
def path_name (p : String) : String :=
  String.mk ((p.data.reverse.takeWhile (fun c => c != '/')).reverse)

/-- Stem/suffix split of a file name, following pathlib: the suffix starts
at the last dot when that dot is neither the first nor the last character of
the name; otherwise the suffix is empty. -/
def split_ext (name : List Char) : List Char × List Char :=
  let j := name.reverse.findIdx (fun c => c == '.')
  if j < name.length then
    let i := name.length - 1 - j
    if 0 < i ∧ i + 1 < name.length then (name.take i, name.drop i)
    else (name, [])
  else (name, [])

/-- Model of Path(input_file).stem. -/
def path_stem (p : String) : String :=
  String.mk (split_ext (path_name p).data).1

/-- Model of Path(input_file).suffix. -/
def path_suffix (p : String) : String :=
  String.mk (split_ext (path_name p).data).2

/-- Output-file name built by generate_output_file (src/eb2ez.py line 170):
input_path.stem + the marker + input_path.suffix.  Note that no directory
part is prepended: the name is relative to the working directory of the
process. -/
def generate_output_filename (input_file : String) : String :=
  path_stem input_file ++ "_EZ_BADGE_UPLOAD" ++ path_suffix input_file

/-- Directory part of a posix path: every character up to and including the
last slash, empty when the path has no slash. -/
def dir_part (p : String) : String :=
  String.mk ((p.data.reverse.dropWhile (fun c => c != '/')).reverse)

/-- Modelled from the spec: the spec places the output file next to the
input file, i.e. in the input's own directory, under the name
stem + marker + suffix; this definition follows the spec's words and is
compared against generate_output_filename, the name the code actually
opens. -/
def spec_output_path (input_file : String) : String :=
  dir_part input_file ++ path_stem input_file ++ "_EZ_BADGE_UPLOAD" ++
    path_suffix input_file

/-- Counterexample to C1 as stated: for an input path with a directory part,
the code opens a bare file name in the current working directory, not the
path next to the input file that the spec prescribes. -/
theorem c1_counterexample :
    generate_output_filename "/data/attendees.csv" = "attendees_EZ_BADGE_UPLOAD.csv" ∧
    spec_output_path "/data/attendees.csv" = "/data/attendees_EZ_BADGE_UPLOAD.csv" ∧
    generate_output_filename "/data/attendees.csv" ≠
      spec_output_path "/data/attendees.csv" := by
  refine ⟨by decide, by decide, by decide⟩

lemma takeWhile_all {p : Char → Bool} {l : List Char} (h : ∀ c ∈ l, p c = true) :
    l.takeWhile p = l ∧ l.dropWhile p = [] := by
  induction l with
  | nil => exact ⟨rfl, rfl⟩
  | cons c cs ih =>
    have hc : p c = true := h c (List.mem_cons_self c cs)
    have ihs := ih (fun d hd => h d (List.mem_cons_of_mem c hd))
    simp [List.takeWhile_cons, List.dropWhile_cons, hc, ihs.1, ihs.2]

lemma path_name_of_no_slash (p : String) (h : '/' ∉ p.data) : path_name p = p := by
  unfold path_name
  have hall : ∀ c ∈ p.data.reverse, (c != '/') = true := by
    intro c hc
    have : c ∈ p.data := List.mem_reverse.mp hc
    simp [bne_iff_ne]
    intro he
    exact h (he ▸ this)
  rw [(takeWhile_all hall).1, List.reverse_reverse]

lemma dir_part_of_no_slash (p : String) (h : '/' ∉ p.data) : dir_part p = "" := by
  unfold dir_part
  have hall : ∀ c ∈ p.data.reverse, (c != '/') = true := by
    intro c hc
    have : c ∈ p.data := List.mem_reverse.mp hc
    simp [bne_iff_ne]
    intro he
    exact h (he ▸ this)
  rw [(takeWhile_all hall).2]
  rfl

lemma split_ext_append (name : List Char) :
    (split_ext name).1 ++ (split_ext name).2 = name := by
  unfold split_ext
  dsimp only
  split_ifs <;> simp [List.take_append_drop]

lemma mem_of_mem_split_ext (name : List Char) (c : Char)
    (h : c ∈ (split_ext name).1 ∨ c ∈ (split_ext name).2) : c ∈ name := by
  have := split_ext_append name
  rcases h with h | h
  · rw [← this]
    exact List.mem_append_left _ h
  · rw [← this]
    exact List.mem_append_right _ h

lemma path_name_no_slash (p : String) (c : Char) (h : c ∈ (path_name p).data) :
    c ≠ '/' := by
  unfold path_name at h
  have h1 : c ∈ p.data.reverse.takeWhile (fun c => c != '/') :=
    List.mem_reverse.mp h
  have h2 := List.mem_takeWhile_imp h1
  simpa [bne_iff_ne] using h2

/-- Claim C1 (amended): the output name is the input's final-component stem
with the marker inserted before the preserved suffix, but it carries no
directory part, so the file is created in the process working directory; it
lands next to the input only when the input path itself has no directory
component. -/
theorem c1_output_filename (p : String) :
    path_stem p ++ path_suffix p = path_name p ∧
    (∀ c ∈ (generate_output_filename p).data, c ≠ '/') ∧
    ('/' ∉ p.data → generate_output_filename p = spec_output_path p) := by
  refine ⟨?_, ?_, ?_⟩
  · apply String.ext
    rw [string_data_append]
    exact split_ext_append (path_name p).data
  · intro c hc
    unfold generate_output_filename at hc
    rw [string_data_append, string_data_append] at hc
    rcases List.mem_append.mp hc with hc | hc
    · rcases List.mem_append.mp hc with hc | hc
      · exact path_name_no_slash p c
          (mem_of_mem_split_ext (path_name p).data c (Or.inl hc))
      · intro he
        subst he
        revert hc
        decide
    · exact path_name_no_slash p c
        (mem_of_mem_split_ext (path_name p).data c (Or.inr hc))
  · intro h
    unfold spec_output_path
    rw [dir_part_of_no_slash p h]
    apply String.ext
    rw [string_data_append]
    rfl

/-- Witness for C1: a bare input file name attendees.csv produces
attendees_EZ_BADGE_UPLOAD.csv, which does lie next to the input. -/
theorem c1_witness :
    generate_output_filename "attendees.csv" = spec_output_path "attendees.csv" ∧
    generate_output_filename "attendees.csv" = "attendees_EZ_BADGE_UPLOAD.csv" :=
  ⟨(c1_output_filename "attendees.csv").2.2 (by decide), by decide⟩

end Eb2ez
